import Mathlib

/-!
Verification of the JobApplicationPipeline repository.

Shallow embedding of the Python sources (`fetch_jobs.py`, `score_jobs.py`,
`cli.py`, `writer.py`, `convert_and_export.py`, `apply_assist.py`).
Python strings are modelled as Lean `String`/`List Char`; Python floats as `ℚ`;
SQLite tables as Lean lists of row structures; fallible operations as `Except`;
external-library calls (rapidfuzz, `re`, Playwright locators, the filesystem,
the LLM client, HTTP responses) as explicit oracle parameters.
-/

/-! ## Shared string helpers (Python `in`, `str.lower` on lists of chars) -/

/-- Whether `n` is a prefix of `h`, on lists of characters. -/
def listIsPre : List Char → List Char → Bool
  | [], _ => true
  | _ :: _, [] => false
  | a :: as, b :: bs => a == b && listIsPre as bs

/-- Whether `n` occurs as a contiguous sublist of `h`. -/
def containsSubL (n : List Char) : List Char → Bool
  | [] => n.isEmpty
  | c :: cs => listIsPre n (c :: cs) || containsSubL n cs

/-- Python's `needle in hay` substring test. -/
def containsSub (needle hay : String) : Bool :=
  containsSubL needle.toList hay.toList

/-- Python's `str.lower()` restricted to ASCII, written so that it reduces
definitionally (`String.toLower` does not kernel-reduce well). -/
def lowerChar (c : Char) : Char :=
  if 'A' ≤ c ∧ c ≤ 'Z' then Char.ofNat (c.toNat + 32) else c

/-- Lowercase a whole string, character by character. -/
def lowerStr (s : String) : String := String.mk (s.toList.map lowerChar)

namespace FetchJobs

/-! ## fetch_jobs.py: the jobs table, `ensure_schema`, `upsert` -/

/-- A row of the `jobs` table (`ensure_schema` / cli `SCHEMA` column list).
`id` is the TEXT primary key; the remaining TEXT columns are nullable. -/
structure JobRow where
  id : String
  source : Option String
  company : Option String
  title : Option String
  location : Option String
  url : Option String
  posted_at : Option String
  raw_json : Option String
deriving DecidableEq, Repr

/-- `upsert` (fetch_jobs.py lines 93-109): `INSERT ... ON CONFLICT(id) DO UPDATE SET`
every non-id column to the incoming (`excluded`) values.  If a row with the same
`id` exists it is rewritten in place (the updated row equals the incoming row,
its `id` being unchanged); otherwise the row is appended. -/
def upsert (t : List JobRow) (r : JobRow) : List JobRow :=
  if t.any (fun q => q.id == r.id) then
    t.map (fun q => if q.id == r.id then r else q)
  else
    t ++ [r]

/-- Column constraints as declared in a `CREATE TABLE` statement. -/
structure ColSpec where
  name : String
  primaryKey : Bool
  uniq : Bool
deriving DecidableEq, Repr

/-- The `jobs` columns created by `ensure_schema` in fetch_jobs.py (lines 74-90):
`id TEXT PRIMARY KEY`, all other columns plain TEXT — no UNIQUE on `url`. -/
def ensure_schema_cols : List ColSpec :=
  [⟨"id", true, false⟩, ⟨"source", false, false⟩, ⟨"company", false, false⟩,
   ⟨"title", false, false⟩, ⟨"location", false, false⟩, ⟨"url", false, false⟩,
   ⟨"posted_at", false, false⟩, ⟨"raw_json", false, false⟩]

/-- The `jobs` columns created by cli.py's `SCHEMA` (lines 27-41):
`id TEXT PRIMARY KEY`, `url TEXT UNIQUE`, plus `score` and `status`. -/
def cli_schema_jobs_cols : List ColSpec :=
  [⟨"id", true, false⟩, ⟨"source", false, false⟩, ⟨"company", false, false⟩,
   ⟨"title", false, false⟩, ⟨"location", false, false⟩, ⟨"url", false, true⟩,
   ⟨"posted_at", false, false⟩, ⟨"raw_json", false, false⟩,
   ⟨"score", false, false⟩, ⟨"status", false, false⟩]

/-- Whether a column list declares a UNIQUE constraint on `url`. -/
def urlUniqueIn (cols : List ColSpec) : Bool :=
  cols.any (fun c => c.name == "url" && c.uniq)

/-- Whether two rows of the table hold the same non-null url. -/
def dupUrl : List JobRow → Bool
  | [] => false
  | r :: rest =>
    (match r.url with
     | some u => rest.any (fun q => q.url == some u)
     | none => false) || dupUrl rest

/-- `upsert` as executed by the SQLite store against the table's declared
constraints: when the schema declares `url` UNIQUE the store raises
`IntegrityError` if the statement would leave two rows with the same non-null
url (the `ON CONFLICT(id)` clause only resolves id conflicts). -/
def upsertChecked (cols : List ColSpec) (t : List JobRow) (r : JobRow) :
    Except String (List JobRow) :=
  let t' := upsert t r
  if urlUniqueIn cols && dupUrl t' then
    .error "UNIQUE constraint failed: jobs.url"
  else
    .ok t'

/-- A sequence of store-level upserts, stopping at the first store error. -/
def applyUpserts (cols : List ColSpec) (t : List JobRow) :
    List JobRow → Except String (List JobRow)
  | [] => .ok t
  | r :: rs =>
    match upsertChecked cols t r with
    | .error e => .error e
    | .ok t' => applyUpserts cols t' rs

/-- The multiset of ids held by the table. -/
def idsOf (t : List JobRow) : List String := t.map (fun r => r.id)

theorem idsOf_upsert (t : List JobRow) (r : JobRow)
    (h : t.any (fun q => q.id == r.id) = true) :
    idsOf (upsert t r) = idsOf t := by
  simp only [upsert, h, if_true, idsOf, List.map_map]
  apply List.map_congr_left
  intro q _
  by_cases hq : q.id = r.id
  · simp [hq]
  · simp [hq]

theorem nodup_idsOf_upsert (t : List JobRow) (r : JobRow)
    (h : (idsOf t).Nodup) : (idsOf (upsert t r)).Nodup := by
  by_cases hmem : t.any (fun q => q.id == r.id) = true
  · rw [idsOf_upsert t r hmem]; exact h
  · have hnone : ∀ q ∈ t, ¬ q.id = r.id := by
      intro q hq heq
      exact hmem (List.any_eq_true.mpr ⟨q, hq, by simp [heq]⟩)
    have hmem' : (t.any fun q => q.id == r.id) = false :=
      Bool.eq_false_iff.mpr hmem
    simp only [upsert, hmem', Bool.false_eq_true, if_false, idsOf,
      List.map_append, List.map_cons, List.map_nil]
    rw [List.nodup_append]
    refine ⟨h, List.nodup_singleton _, ?_⟩
    intro a ha hb
    simp only [List.mem_singleton] at hb
    simp only [idsOf, List.mem_map] at ha
    obtain ⟨q, hq, rfl⟩ := ha
    exact hnone q hq hb

theorem nodup_idsOf_foldl (ops : List JobRow) (t : List JobRow)
    (h : (idsOf t).Nodup) : (idsOf (ops.foldl upsert t)).Nodup := by
  induction ops generalizing t with
  | nil => exact h
  | cons r rs ih => exact ih (upsert t r) (nodup_idsOf_upsert t r h)

theorem filter_id_len_le_one (t : List JobRow) (h : (idsOf t).Nodup)
    (i : String) : (t.filter (fun q => q.id == i)).length ≤ 1 := by
  induction t with
  | nil => simp
  | cons r rs ih =>
    simp only [idsOf, List.map_cons, List.nodup_cons] at h
    obtain ⟨hr, hrs⟩ := h
    by_cases hri : r.id = i
    · have : ∀ q ∈ rs, ¬ q.id = i := by
        intro q hq hqi
        exact hr (List.mem_map.mpr ⟨q, hq, by rw [hqi, hri]⟩)
      have hfilter : rs.filter (fun q => q.id == i) = [] := by
        apply List.filter_eq_nil_iff.mpr
        intro q hq
        simp [this q hq]
      simp [List.filter_cons, hri, hfilter]
    · have hri' : (r.id == i) = false := by simp [hri]
      simp only [List.filter_cons, hri', Bool.false_eq_true, if_false]
      exact ih hrs

/-- C2: starting from the empty table created by `ensure_schema`, any
sequence of `upsert` calls leaves at most one row per job id; an `upsert`
whose id is already present rewrites that row in place (all columns take the
incoming values, so the updated row is the incoming row) and does not change
the number of rows. -/
theorem c2_upsert_no_duplicates (ops : List JobRow) (i : String)
    (t : List JobRow) (r : JobRow)
    (hpresent : t.any (fun q => q.id == r.id) = true) :
    ((ops.foldl upsert []).filter (fun q => q.id == i)).length ≤ 1
    ∧ (upsert t r).length = t.length
    ∧ r ∈ upsert t r
    ∧ (∀ q ∈ upsert t r, q.id = r.id → q = r) := by
  refine ⟨?_, ?_, ?_, ?_⟩
  · exact filter_id_len_le_one _ (nodup_idsOf_foldl ops [] (by simp [idsOf])) i
  · simp [upsert, hpresent]
  · simp only [upsert, hpresent, if_true]
    obtain ⟨q, hq, hqid⟩ := List.any_eq_true.mp hpresent
    have hqid' : q.id = r.id := by simpa using hqid
    exact List.mem_map.mpr ⟨q, hq, by simp [hqid']⟩
  · intro q hq hqid
    simp only [upsert, hpresent, if_true, List.mem_map] at hq
    obtain ⟨q0, hq0mem, hq0⟩ := hq
    by_cases h0 : q0.id = r.id
    · rw [← hq0]; simp [h0]
    · exfalso
      apply h0
      have hqq0 : q = q0 := by rw [← hq0]; simp [h0]
      rw [hqq0] at hqid
      exact hqid

/-- A concrete use of `c2_upsert_no_duplicates`: a table holding one row,
upserted with a fresh row for the same id. -/
def rowA : JobRow :=
  ⟨"greenhouse:stripe:1", some "greenhouse", some "stripe", some "SWE",
   none, some "https://stripe.com/jobs/1", none, none⟩

/-- Same id as `rowA`, different column values. -/
def rowA' : JobRow :=
  ⟨"greenhouse:stripe:1", some "greenhouse", some "stripe", some "Senior SWE",
   some "NYC", some "https://stripe.com/jobs/1b", none, none⟩

/-- Different id from `rowA`, same url. -/
def rowB : JobRow :=
  ⟨"greenhouse:stripe:2", some "greenhouse", some "stripe", some "PM",
   none, some "https://stripe.com/jobs/1", none, none⟩

theorem c2_upsert_no_duplicates_witness :
    (([rowA, rowA'].foldl upsert []).filter
        (fun q => q.id == "greenhouse:stripe:1")).length ≤ 1
    ∧ (upsert [rowA] rowA').length = [rowA].length
    ∧ rowA' ∈ upsert [rowA] rowA'
    ∧ (∀ q ∈ upsert [rowA] rowA', q.id = rowA'.id → q = rowA') :=
  c2_upsert_no_duplicates [rowA, rowA'] "greenhouse:stripe:1" [rowA] rowA'
    (by decide)

/-- C3 counterexample: the jobs table created by `ensure_schema` in
fetch_jobs.py declares no UNIQUE constraint on `url`, so the store accepts two
rows (distinct ids) holding the same non-null url.  This refutes the claim that
url uniqueness holds regardless of which code path created the table. -/
theorem c3_counterexample :
    urlUniqueIn ensure_schema_cols = false
    ∧ applyUpserts ensure_schema_cols [] [rowA, rowB] = .ok [rowA, rowB]
    ∧ dupUrl [rowA, rowB] = true
    ∧ rowA.id ≠ rowB.id := by
  refine ⟨by decide, by rfl, by decide, by decide⟩

theorem upsertChecked_no_dupUrl (t : List JobRow) (r : JobRow)
    (t' : List JobRow)
    (hu : urlUniqueIn cli_schema_jobs_cols = true)
    (h : upsertChecked cli_schema_jobs_cols t r = .ok t') :
    dupUrl t' = false := by
  simp only [upsertChecked, hu, Bool.true_and] at h
  by_cases hd : dupUrl (upsert t r) = true
  · simp [hd] at h
  · have hd' : dupUrl (upsert t r) = false := Bool.eq_false_iff.mpr hd
    simp only [hd', Bool.false_eq_true, if_false, Except.ok.injEq] at h
    rw [← h]
    exact hd'

theorem applyUpserts_cli_no_dupUrl (ops : List JobRow) (t t' : List JobRow)
    (h0 : dupUrl t = false)
    (h : applyUpserts cli_schema_jobs_cols t ops = .ok t') :
    dupUrl t' = false := by
  induction ops generalizing t with
  | nil =>
    simp only [applyUpserts, Except.ok.injEq] at h
    subst h
    exact h0
  | cons r rs ih =>
    simp only [applyUpserts] at h
    cases hc : upsertChecked cli_schema_jobs_cols t r with
    | error e => rw [hc] at h; exact absurd h (by simp)
    | ok t1 =>
      rw [hc] at h
      exact ih t1 (upsertChecked_no_dupUrl t r t1 (by decide) hc) h

/-- C3 (amended): the store enforces url uniqueness only for the `jobs` table
created by cli.py's `SCHEMA` (`url TEXT UNIQUE`): every successful sequence of
upserts against that schema, starting from the empty table, leaves no two rows
with the same non-null url.  The table created by fetch_jobs.py's
`ensure_schema` declares no unique constraint on `url`, so the guarantee does
depend on which code path created the table. -/
theorem c3_url_unique_cli_schema_only (ops : List JobRow) (t : List JobRow)
    (h : applyUpserts cli_schema_jobs_cols [] ops = .ok t) :
    dupUrl t = false
    ∧ urlUniqueIn cli_schema_jobs_cols = true
    ∧ urlUniqueIn ensure_schema_cols = false :=
  ⟨applyUpserts_cli_no_dupUrl ops [] t (by decide) h, by decide, by decide⟩

theorem c3_url_unique_cli_schema_only_witness :
    dupUrl [rowA] = false
    ∧ urlUniqueIn cli_schema_jobs_cols = true
    ∧ urlUniqueIn ensure_schema_cols = false :=
  c3_url_unique_cli_schema_only [rowA] [rowA] (by rfl)

end FetchJobs

namespace SchemaOps

/-! ## Schema creation: `ensure_schema` (fetch_jobs.py), `ensure_db` (cli.py),
`ensure_score_column` (score_jobs.py) -/

/-- A created SQLite table: its column names (in declaration order) and its
stored rows, each row an association of column name to nullable TEXT value. -/
structure TableState where
  cols : List String
  rows : List (List (String × Option String))
deriving DecidableEq, Repr

/-- The database file: the two tables the pipeline uses, `none` while a table
has not been created. -/
structure DBState where
  jobs : Option TableState
  apps : Option TableState
deriving DecidableEq, Repr

/-- Column names of the `jobs` table as created by fetch_jobs.py. -/
def fetch_jobs_colnames : List String :=
  ["id", "source", "company", "title", "location", "url", "posted_at",
   "raw_json"]

/-- Column names of the `jobs` table as created by cli.py's `SCHEMA`. -/
def cli_jobs_colnames : List String :=
  fetch_jobs_colnames ++ ["score", "status"]

/-- Column names of the `applications` table (cli.py's `SCHEMA`). -/
def cli_apps_colnames : List String :=
  ["job_id", "applied_at", "resume_path", "cover_path", "notes"]

/-- `ensure_schema` (fetch_jobs.py lines 74-90): `CREATE TABLE IF NOT EXISTS
jobs (...)` — a no-op when the table exists, otherwise creates it empty. -/
def ensure_schema (d : DBState) : DBState :=
  match d.jobs with
  | some _ => d
  | none => { d with jobs := some ⟨fetch_jobs_colnames, []⟩ }

/-- `ensure_db` (cli.py lines 43-49): `executescript(SCHEMA)`, i.e. `CREATE
TABLE IF NOT EXISTS jobs (...)` then `CREATE TABLE IF NOT EXISTS
applications (...)`. -/
def ensure_db (d : DBState) : DBState :=
  let d1 :=
    match d.jobs with
    | some _ => d
    | none => { d with jobs := some ⟨cli_jobs_colnames, []⟩ }
  match d1.apps with
  | some _ => d1
  | none => { d1 with apps := some ⟨cli_apps_colnames, []⟩ }

/-- `ensure_score_column` (score_jobs.py lines 57-63): reads `PRAGMA
table_info(jobs)` (the empty set when the table does not exist) and, when
`score` is absent, runs `ALTER TABLE jobs ADD COLUMN score REAL` — which fails
with `no such table` if `jobs` was never created, and otherwise appends the
column, existing rows taking NULL for it. -/
def ensure_score_column (d : DBState) : Except String DBState :=
  match d.jobs with
  | none => .error "no such table: jobs"
  | some t =>
    if "score" ∈ t.cols then .ok d
    else
      .ok { d with
            jobs := some ⟨t.cols ++ ["score"],
                          t.rows.map (fun row => row ++ [("score", none)])⟩ }

/-- C7: schema creation is idempotent.  A second run of `ensure_schema` or
`ensure_db` on any database leaves it exactly as the first run left it, and a
second run of `ensure_score_column` after a successful first run returns the
database unchanged instead of failing on the already-existing column. -/
theorem c7_schema_idempotent :
    (∀ d : DBState, ensure_schema (ensure_schema d) = ensure_schema d
      ∧ ensure_db (ensure_db d) = ensure_db d)
    ∧ (∀ d d' : DBState, ensure_score_column d = .ok d' →
        ensure_score_column d' = .ok d') := by
  constructor
  · intro d
    constructor
    · cases hj : d.jobs with
      | some t => simp [ensure_schema, hj]
      | none => simp [ensure_schema, hj]
    · cases hj : d.jobs with
      | some t =>
        cases ha : d.apps with
        | some u => simp [ensure_db, hj, ha]
        | none => simp [ensure_db, hj, ha]
      | none =>
        cases ha : d.apps with
        | some u => simp [ensure_db, hj, ha]
        | none => simp [ensure_db, hj, ha]
  · intro d d' h
    cases hj : d.jobs with
    | none => rw [ensure_score_column, hj] at h; exact absurd h (by simp)
    | some t =>
      rw [ensure_score_column, hj] at h
      by_cases hs : "score" ∈ t.cols
      · simp only [hs, if_true, Except.ok.injEq] at h
        subst h
        rw [ensure_score_column, hj]
        simp [hs]
      · simp only [hs, if_false, Except.ok.injEq] at h
        subst h
        rw [ensure_score_column]
        simp

/-- A database on which the first `ensure_score_column` run succeeds. -/
def dbWithJobs : DBState :=
  { jobs := some ⟨fetch_jobs_colnames, []⟩, apps := none }

/-- The same database after `score` has been added. -/
def dbWithScore : DBState :=
  { jobs := some ⟨fetch_jobs_colnames ++ ["score"], []⟩, apps := none }

theorem c7_schema_idempotent_witness :
    ensure_schema (ensure_schema dbWithJobs) = ensure_schema dbWithJobs
    ∧ ensure_score_column dbWithScore = .ok dbWithScore :=
  ⟨(c7_schema_idempotent.1 dbWithJobs).1,
   c7_schema_idempotent.2 dbWithJobs dbWithScore (by rfl)⟩

end SchemaOps

namespace ScoreJobs

/-! ## score_jobs.py: skills profile and `skill_score` -/

/-- `MY_SKILLS` (score_jobs.py lines 14-19), flattened to the iteration the
scorer performs: list buckets contribute their members, the dict bucket
`years_exp` contributes its keys (`skills.keys()` in the dict branch). -/
def MY_SKILLS : List (String × List String) :=
  [("languages", ["python", "typescript", "go"]),
   ("ml", ["nlp", "transformers", "langchain", "retrieval", "llmops"]),
   ("tools", ["postgres", "docker", "kubernetes", "playwright", "aws", "gcp"]),
   ("years_exp", ["python", "typescript"])]

/-- `BUCKET_WEIGHTS` (lines 22-27); Python floats modelled as rationals. -/
def BUCKET_WEIGHTS : List (String × ℚ) :=
  [("languages", 1), ("ml", 6/5), ("tools", 9/10), ("years_exp", 11/10)]

/-- `BUCKET_WEIGHTS.get(bucket, 1.0)`. -/
def bucketWeight (b : String) : ℚ :=
  ((BUCKET_WEIGHTS.find? (fun p => p.1 == b)).map Prod.snd).getD 1

/-- `FUZZY_THRESHOLD` (line 30). -/
def FUZZY_THRESHOLD : ℕ := 85

/-- `exact_or_fuzzy_hit` (lines 69-75).  `fuzz.partial_ratio` from rapidfuzz
is an external library call, modelled as the oracle `pr`. -/
def exact_or_fuzzy_hit (pr : String → String → ℕ) (skill text : String) :
    Bool :=
  if skill = "" then false
  else if containsSub skill text then true
  else decide (FUZZY_THRESHOLD ≤ pr skill text)

/-- One bucket's contribution to `weighted_total`: its weight once per skill. -/
def bucketTotal (b : String × List String) : ℚ :=
  bucketWeight b.1 * b.2.length

/-- One bucket's contribution to `weighted_hits`: its weight once per skill
whose lowercased name hits the text. -/
def bucketHits (pr : String → String → ℕ) (text : String)
    (b : String × List String) : ℚ :=
  bucketWeight b.1 *
    ((b.2.filter (fun sk => exact_or_fuzzy_hit pr (lowerStr sk) text)).length)

/-- The running `weighted_total` after the loop of `skill_score`. -/
def weighted_total : ℚ := (MY_SKILLS.map bucketTotal).sum

/-- The running `weighted_hits` after the loop of `skill_score`. -/
def weighted_hits (pr : String → String → ℕ) (text : String) : ℚ :=
  (MY_SKILLS.map (bucketHits pr text)).sum

/-- Python's `round` ties-to-even on the fractional part, here on rationals
(the source computes with floats; the tie rule is irrelevant to the range
property proved below). -/
def roundHalfEven (q : ℚ) : ℤ :=
  let f := ⌊q⌋
  let r := q - f
  if r < 1/2 then f
  else if 1/2 < r then f + 1
  else if Even f then f else f + 1

/-- `round(x, 1)`: round to one decimal digit. -/
def pyRound1 (q : ℚ) : ℚ := (roundHalfEven (10 * q) : ℚ) / 10

/-- `skill_score` (score_jobs.py lines 77-102): lowercase the text
(`normalize_text`), accumulate weighted totals and hits over the buckets of
`MY_SKILLS`, and return `round(100.0 * hits / total, 1)` (0.0 for an empty
profile). -/
def skill_score (pr : String → String → ℕ) (text : String) : ℚ :=
  let t := lowerStr text
  let hits := weighted_hits pr t
  let total := weighted_total
  if total = 0 then 0 else pyRound1 (100 * (hits / total))

theorem roundHalfEven_bounds (q : ℚ) (h0 : 0 ≤ q) (h1 : q ≤ 1000) :
    0 ≤ roundHalfEven q ∧ roundHalfEven q ≤ 1000 := by
  have hf0 : (0 : ℤ) ≤ ⌊q⌋ := by positivity
  have hf1 : ⌊q⌋ ≤ 1000 := by
    have := Int.floor_le_floor h1
    simpa using this
  unfold roundHalfEven
  by_cases hr1 : q - ⌊q⌋ < 1/2
  · simp only [hr1, if_true]
    exact ⟨hf0, hf1⟩
  · simp only [hr1, if_false]
    have hflt : ⌊q⌋ ≤ 999 := by
      have hfr : (1:ℚ)/2 ≤ q - ⌊q⌋ := le_of_not_lt hr1
      have : (⌊q⌋ : ℚ) + 1/2 ≤ q := by linarith
      have hq2 : (⌊q⌋ : ℚ) ≤ 999.5 := by linarith
      by_contra hcon
      push_neg at hcon
      have : (1000 : ℚ) ≤ (⌊q⌋ : ℚ) := by exact_mod_cast hcon
      linarith
    by_cases hr2 : 1/2 < q - ⌊q⌋
    · simp only [hr2, if_true]
      omega
    · simp only [hr2, if_false]
      by_cases he : Even ⌊q⌋
      · simp only [he, if_true]
        exact ⟨hf0, hf1⟩
      · simp only [he, if_false]
        omega

theorem weighted_hits_bounds (pr : String → String → ℕ) (text : String) :
    0 ≤ weighted_hits pr text ∧ weighted_hits pr text ≤ weighted_total := by
  have hw1 : bucketWeight "languages" = 1 := rfl
  have hw2 : bucketWeight "ml" = 6/5 := rfl
  have hw3 : bucketWeight "tools" = 9/10 := rfl
  have hw4 : bucketWeight "years_exp" = 11/10 := rfl
  have h1 := List.length_filter_le
    (fun sk => exact_or_fuzzy_hit pr (lowerStr sk) text)
    ["python", "typescript", "go"]
  have h2 := List.length_filter_le
    (fun sk => exact_or_fuzzy_hit pr (lowerStr sk) text)
    ["nlp", "transformers", "langchain", "retrieval", "llmops"]
  have h3 := List.length_filter_le
    (fun sk => exact_or_fuzzy_hit pr (lowerStr sk) text)
    ["postgres", "docker", "kubernetes", "playwright", "aws", "gcp"]
  have h4 := List.length_filter_le
    (fun sk => exact_or_fuzzy_hit pr (lowerStr sk) text)
    ["python", "typescript"]
  simp only [List.length_cons, List.length_nil] at h1 h2 h3 h4
  have h1' : ((["python", "typescript", "go"].filter
      (fun sk => exact_or_fuzzy_hit pr (lowerStr sk) text)).length : ℚ) ≤ 3 := by
    exact_mod_cast h1
  have h2' : ((["nlp", "transformers", "langchain", "retrieval",
      "llmops"].filter
      (fun sk => exact_or_fuzzy_hit pr (lowerStr sk) text)).length : ℚ) ≤ 5 := by
    exact_mod_cast h2
  have h3' : ((["postgres", "docker", "kubernetes", "playwright", "aws",
      "gcp"].filter
      (fun sk => exact_or_fuzzy_hit pr (lowerStr sk) text)).length : ℚ) ≤ 6 := by
    exact_mod_cast h3
  have h4' : ((["python", "typescript"].filter
      (fun sk => exact_or_fuzzy_hit pr (lowerStr sk) text)).length : ℚ) ≤ 2 := by
    exact_mod_cast h4
  constructor
  · unfold weighted_hits MY_SKILLS bucketHits
    simp only [List.map_cons, List.map_nil, List.sum_cons, List.sum_nil]
    rw [hw1, hw2, hw3, hw4]
    positivity
  · unfold weighted_hits weighted_total MY_SKILLS bucketHits bucketTotal
    simp only [List.map_cons, List.map_nil, List.sum_cons, List.sum_nil,
      List.length_cons, List.length_nil]
    rw [hw1, hw2, hw3, hw4]
    push_cast
    linarith

/-- The profile is nonempty, so the scorer's weighted total is the fixed
positive constant 16.6. -/
theorem weighted_total_eq : weighted_total = 83/5 := by
  have hw1 : bucketWeight "languages" = 1 := rfl
  have hw2 : bucketWeight "ml" = 6/5 := rfl
  have hw3 : bucketWeight "tools" = 9/10 := rfl
  have hw4 : bucketWeight "years_exp" = 11/10 := rfl
  unfold weighted_total MY_SKILLS bucketTotal
  simp only [List.map_cons, List.map_nil, List.sum_cons, List.sum_nil,
    List.length_cons, List.length_nil]
  rw [hw1, hw2, hw3, hw4]
  norm_num

/-- C1: for every fuzzy-matcher oracle and every input text, `skill_score`
with the fixed `MY_SKILLS` profile and `BUCKET_WEIGHTS` is deterministic (two
calls on the same text give the same value — it is a pure function of the
text) and its value lies in the interval [0, 100]. -/
theorem c1_skill_score_deterministic_in_range (pr : String → String → ℕ)
    (text : String) :
    skill_score pr text = skill_score pr text
    ∧ 0 ≤ skill_score pr text ∧ skill_score pr text ≤ 100 := by
  obtain ⟨hh0, hh1⟩ := weighted_hits_bounds pr (lowerStr text)
  rw [weighted_total_eq] at hh1
  have harg0 : 0 ≤ 100 * (weighted_hits pr (lowerStr text) / (83/5 : ℚ)) := by
    positivity
  have harg1 : 100 * (weighted_hits pr (lowerStr text) / (83/5 : ℚ)) ≤ 100 := by
    have hd : weighted_hits pr (lowerStr text) / (83/5 : ℚ) ≤ 1 := by
      rw [div_le_one (by norm_num)]
      linarith
    linarith
  have hr := roundHalfEven_bounds
    (10 * (100 * (weighted_hits pr (lowerStr text) / (83/5 : ℚ))))
    (by linarith) (by linarith)
  have hscore : skill_score pr text =
      ((roundHalfEven (10 * (100 *
        (weighted_hits pr (lowerStr text) / (83/5 : ℚ))))) : ℚ) / 10 := by
    unfold skill_score pyRound1
    rw [weighted_total_eq]
    norm_num
  have hc0 : (0 : ℚ) ≤
      ((roundHalfEven (10 * (100 *
        (weighted_hits pr (lowerStr text) / (83/5 : ℚ))))) : ℚ) := by
    exact_mod_cast hr.1
  have hc1 : ((roundHalfEven (10 * (100 *
      (weighted_hits pr (lowerStr text) / (83/5 : ℚ))))) : ℚ) ≤ 1000 := by
    exact_mod_cast hr.2
  refine ⟨rfl, ?_, ?_⟩
  · rw [hscore]
    linarith
  · rw [hscore]
    linarith

end ScoreJobs

namespace ConvertExport

/-! ## convert_and_export.py: `wrap_line` inside `md_to_pdf_simple` -/

/-- The `dropWhile` of a list is a suffix, hence no longer than the list. -/
theorem length_dropWhile_le (p : Char → Bool) (l : List Char) :
    (l.dropWhile p).length ≤ l.length :=
  (List.dropWhile_suffix p).sublist.length_le

/-- Python's `line.rfind(" ", 0, stop)`: the largest index `i < stop` (and
inside the string) holding a space, if any. -/
def rfind_space (l : List Char) (stop : ℕ) : Option ℕ :=
  (List.range (min stop l.length)).reverse.find? (fun i => l.get? i == some ' ')

/-- `wrap_line` (convert_and_export.py lines 35-45): while the line is longer
than `maxChars`, cut at the last space before `maxChars` (or hard-cut at
`maxChars` when there is none), emit the piece before the cut, and continue
with the remainder stripped of leading whitespace (`lstrip`); finally emit
what is left.  For `maxChars = 0` the Python loop would not terminate on a
line with no leading whitespace; the claim under verification restricts
`max_chars >= 1`, and this model returns the line unchanged in that dead
branch. -/
def wrap_line (maxChars : ℕ) (line : List Char) : List (List Char) :=
  if _h1 : line.length ≤ maxChars then [line]
  else if _h2 : maxChars = 0 then [line]
  else
    let cut := (rfind_space line maxChars).getD maxChars
    line.take cut ::
      wrap_line maxChars ((line.drop cut).dropWhile (fun c => c.isWhitespace))
termination_by line.length
decreasing_by
  rcases hfind : rfind_space line maxChars with _ | i
  · simp only [hfind, Option.getD_none]
    calc ((line.drop maxChars).dropWhile (fun c => c.isWhitespace)).length
        ≤ (line.drop maxChars).length := length_dropWhile_le _ _
      _ = line.length - maxChars := List.length_drop _ _
      _ < line.length := by omega
  · have hmem := List.mem_of_find?_eq_some hfind
    have hp := List.find?_some hfind
    simp only [List.mem_reverse, List.mem_range, Nat.lt_min] at hmem
    simp only [beq_iff_eq] at hp
    simp only [hfind, Option.getD_some]
    rcases Nat.eq_zero_or_pos i with hi | hi
    · subst hi
      cases line with
      | nil => simp at hmem
      | cons c cs =>
        simp only [List.get?] at hp
        have hc : c = ' ' := by injection hp
        rw [List.drop_zero, hc]
        rw [List.dropWhile_cons_of_pos (by decide)]
        calc (cs.dropWhile (fun c => c.isWhitespace)).length
            ≤ cs.length := length_dropWhile_le _ _
          _ < (' ' :: cs).length := by simp
    · calc ((line.drop i).dropWhile (fun c => c.isWhitespace)).length
          ≤ (line.drop i).length := length_dropWhile_le _ _
        _ = line.length - i := List.length_drop _ _
        _ < line.length := by omega

theorem rfind_space_lt (l : List Char) (stop i : ℕ)
    (h : rfind_space l stop = some i) : i < stop := by
  have hmem := List.mem_of_find?_eq_some h
  simp only [List.mem_reverse, List.mem_range, Nat.lt_min] at hmem
  exact hmem.1

/-- C10: for `max_chars >= 1`, `wrap_line` terminates (it is a total function
of its arguments, each iteration strictly shortening the remaining line, as
the final conjunct records), returns a non-empty list of chunks, and every
chunk has length at most `max_chars`. -/
theorem c10_wrap_line_terminates_bounded (maxChars : ℕ) (line : List Char)
    (h : 1 ≤ maxChars) :
    wrap_line maxChars line ≠ []
    ∧ (∀ chunk ∈ wrap_line maxChars line, chunk.length ≤ maxChars)
    ∧ (maxChars < line.length →
        (((line.drop ((rfind_space line maxChars).getD maxChars)).dropWhile
            (fun c => c.isWhitespace)).length < line.length)) := by
  refine ⟨?_, ?_, ?_⟩
  · rw [wrap_line]
    split_ifs <;> simp
  · induction line using wrap_line.induct maxChars with
    | case1 l h1 =>
      rw [wrap_line]
      simp only [h1, dif_pos]
      intro c hc
      simp only [List.mem_singleton] at hc
      subst hc
      exact h1
    | case2 l h1 h2 =>
      omega
    | case3 l h1 h2 cut ih =>
      rw [wrap_line]
      simp only [h1, h2, dif_neg, not_false_iff]
      intro c hc
      simp only [List.mem_cons] at hc
      rcases hc with hc | hc
      · subst hc
        have hcut : (rfind_space l maxChars).getD maxChars ≤ maxChars := by
          rcases hfind : rfind_space l maxChars with _ | i
          · simp
          · simp only [Option.getD_some]
            exact Nat.le_of_lt (rfind_space_lt l maxChars i hfind)
        calc (l.take ((rfind_space l maxChars).getD maxChars)).length
            ≤ (rfind_space l maxChars).getD maxChars := by
              simp [List.length_take]
          _ ≤ maxChars := hcut
      · exact ih c hc
  · intro hlong
    rcases hfind : rfind_space line maxChars with _ | i
    · simp only [hfind, Option.getD_none]
      calc ((line.drop maxChars).dropWhile (fun c => c.isWhitespace)).length
          ≤ (line.drop maxChars).length := length_dropWhile_le _ _
        _ = line.length - maxChars := List.length_drop _ _
        _ < line.length := by omega
    · have hmem := List.mem_of_find?_eq_some hfind
      have hp := List.find?_some hfind
      simp only [List.mem_reverse, List.mem_range, Nat.lt_min] at hmem
      simp only [beq_iff_eq] at hp
      simp only [hfind, Option.getD_some]
      rcases Nat.eq_zero_or_pos i with hi | hi
      · subst hi
        cases line with
        | nil => simp at hmem
        | cons c cs =>
          simp only [List.get?] at hp
          have hc : c = ' ' := by injection hp
          rw [List.drop_zero, hc]
          rw [List.dropWhile_cons_of_pos (by decide)]
          calc (cs.dropWhile (fun c => c.isWhitespace)).length
              ≤ cs.length := length_dropWhile_le _ _
            _ < (' ' :: cs).length := by simp
      · calc ((line.drop i).dropWhile (fun c => c.isWhitespace)).length
            ≤ (line.drop i).length := length_dropWhile_le _ _
          _ = line.length - i := List.length_drop _ _
          _ < line.length := by omega

theorem c10_wrap_line_terminates_bounded_witness :
    wrap_line 5 "hello wide world".toList ≠ []
    ∧ (∀ chunk ∈ wrap_line 5 "hello wide world".toList, chunk.length ≤ 5)
    ∧ (5 < "hello wide world".toList.length →
        ((("hello wide world".toList.drop
            ((rfind_space "hello wide world".toList 5).getD 5)).dropWhile
            (fun c => c.isWhitespace)).length
          < "hello wide world".toList.length)) :=
  c10_wrap_line_terminates_bounded 5 "hello wide world".toList (by decide)

end ConvertExport

namespace ApplyAssist

/-! ## apply_assist.py: `_pick_valid_upload` -/

/-- `ALLOWED_UPLOAD_EXTS` (apply_assist.py line 27). -/
def ALLOWED_UPLOAD_EXTS : List String := [".pdf", ".doc", ".docx", ".rtf"]

/-- The last path component (`pathlib` name): everything after the final
separator. -/
def lastComponent (l : List Char) : List Char :=
  (l.reverse.takeWhile (fun c => c ≠ '/')).reverse

/-- The index of the last dot of a file name, if any. -/
def lastDotIdx (nm : List Char) : Option ℕ :=
  (List.range nm.length).reverse.find? (fun i => nm.get? i == some '.')

/-- `pathlib.Path(p).suffix`: the part of the last component from its last
dot on, empty when the dot is leading, trailing or absent. -/
def path_suffix (p : String) : String :=
  let nm := lastComponent p.toList
  match lastDotIdx nm with
  | some i => if 0 < i ∧ i < nm.length - 1 then String.mk (nm.drop i) else ""
  | none => ""

/-- The `ok` closure inside `_pick_valid_upload` (lines 88-89): a present,
non-empty path that exists on disk and whose lowercased suffix is an allowed
upload extension.  The filesystem is the oracle `fs`. -/
def okUpload (fs : String → Bool) : Option String → Bool
  | none => false
  | some p =>
    (!(p == "")) && fs p
      && ALLOWED_UPLOAD_EXTS.contains (lowerStr (path_suffix p))

/-- `_pick_valid_upload` (apply_assist.py lines 86-95): prefer the DB path when
valid, else the environment variable's path, else `None`; the chosen path is
returned through `os.path.abspath` (oracle `abspath`). -/
def pick_valid_upload (fs : String → Bool) (abspath : String → String)
    (env : Option String) (db_path : Option String) : Option String :=
  if okUpload fs db_path then db_path.map abspath
  else if okUpload fs env then env.map abspath
  else none

theorem okUpload_some_spec (fs : String → Bool) (p : String)
    (h : okUpload fs (some p) = true) :
    fs p = true ∧ lowerStr (path_suffix p) ∈ ALLOWED_UPLOAD_EXTS := by
  simp only [okUpload, Bool.and_eq_true] at h
  obtain ⟨⟨-, hfs⟩, hmem⟩ := h
  exact ⟨hfs, by simpa using hmem⟩

/-- C9: whenever `_pick_valid_upload` returns a path, that path (the abspath
of the chosen candidate) refers to an existing file whose lowercased extension
is one of `.pdf`, `.doc`, `.docx`, `.rtf`; and whenever the DB path itself
satisfies the validity condition, the DB path is the one returned, in
preference to the environment variable's path.  The two side conditions say
that `os.path.abspath` preserves existence and the suffix. -/
theorem c9_pick_valid_upload (fs : String → Bool) (abspath : String → String)
    (env db_path : Option String)
    (hfs : ∀ p, fs (abspath p) = fs p)
    (hsuf : ∀ p, path_suffix (abspath p) = path_suffix p) :
    (∀ r, pick_valid_upload fs abspath env db_path = some r →
      fs r = true ∧ lowerStr (path_suffix r) ∈ ALLOWED_UPLOAD_EXTS)
    ∧ (∀ p, db_path = some p →
        ¬ p = "" → fs p = true →
        lowerStr (path_suffix p) ∈ ALLOWED_UPLOAD_EXTS →
        pick_valid_upload fs abspath env db_path = some (abspath p)) := by
  constructor
  · intro r hr
    unfold pick_valid_upload at hr
    by_cases h1 : okUpload fs db_path = true
    · rw [if_pos h1] at hr
      cases db_path with
      | none => simp [okUpload] at h1
      | some p =>
        simp only [Option.map_some'] at hr
        obtain ⟨hfs', hsuf'⟩ := okUpload_some_spec fs p h1
        have hreq : r = abspath p := by injection hr.symm
        subst hreq
        rw [hfs p, hsuf p]
        exact ⟨hfs', hsuf'⟩
    · rw [if_neg h1] at hr
      by_cases h2 : okUpload fs env = true
      · rw [if_pos h2] at hr
        cases env with
        | none => simp [okUpload] at h2
        | some p =>
          simp only [Option.map_some'] at hr
          obtain ⟨hfs', hsuf'⟩ := okUpload_some_spec fs p h2
          have hreq : r = abspath p := by injection hr.symm
          subst hreq
          rw [hfs p, hsuf p]
          exact ⟨hfs', hsuf'⟩
      · rw [if_neg h2] at hr
        exact absurd hr (by simp)
  · intro p hp hne hfsp hext
    subst hp
    have hok : okUpload fs (some p) = true := by
      simp only [okUpload, Bool.and_eq_true]
      refine ⟨⟨?_, hfsp⟩, ?_⟩
      · simpa using hne
      · simpa using hext
    unfold pick_valid_upload
    rw [if_pos hok]
    simp

theorem c9_pick_valid_upload_witness :
    pick_valid_upload (fun p => p == "docs/job_resume.pdf") id none
        (some "docs/job_resume.pdf") = some (id "docs/job_resume.pdf") :=
  (c9_pick_valid_upload (fun p => p == "docs/job_resume.pdf") id none
      (some "docs/job_resume.pdf") (fun _ => rfl) (fun _ => rfl)).2
    "docs/job_resume.pdf" rfl (by decide) (by decide) (by decide)

end ApplyAssist

/-- Whether an `Except` computation finished without raising. -/
def isOkE {ε α : Type} : Except ε α → Bool
  | .ok _ => true
  | .error _ => false

namespace FetchJobs

/-! ## fetch_jobs.py: the per-org fetchers and their error handling -/

/-- The fields of one raw posting the normalizers read.  `id?` is `None` when
the payload lacks an `id` key (Python would raise `KeyError`); `posted_at`
carries the result of the total helper `to_iso_utc`; `raw` stands for
`json.dumps(job)`. -/
structure RawJob where
  id? : Option String
  title : Option String
  location : Option String
  url : Option String
  posted_at : Option String
  raw : String
deriving DecidableEq, Repr

/-- `normalize_gh` (fetch_jobs.py lines 115-126): `job['id']` raises when
absent, everything else is a total field read. -/
def normalize_gh (org : String) (j : RawJob) : Except String JobRow :=
  match j.id? with
  | none => .error "KeyError: id"
  | some i =>
    .ok ⟨"greenhouse:" ++ org ++ ":" ++ i, some "greenhouse", some org,
         j.title, j.location, j.url, j.posted_at, some j.raw⟩

/-- `normalize_lever` (lines 129-147): same failure mode on `job['id']`;
the location/createdAt massaging is total and folded into the fields. -/
def normalize_lever (org : String) (j : RawJob) : Except String JobRow :=
  match j.id? with
  | none => .error "KeyError: id"
  | some i =>
    .ok ⟨"lever:" ++ org ++ ":" ++ i, some "lever", some org,
         j.title, j.location, j.url, j.posted_at, some j.raw⟩

/-- The normalize-and-upsert loop body shared by both fetchers: processes
postings until the first failure (normalization or store constraint), keeping
the rows already upserted (sqlite autocommit keeps partial work). -/
def process_jobs (norm : RawJob → Except String JobRow) (cols : List ColSpec)
    (t : List JobRow) : List RawJob → List JobRow × Option String
  | [] => (t, none)
  | j :: js =>
    match norm j with
    | .error e => (t, some e)
    | .ok row =>
      match upsertChecked cols t row with
      | .error e => (t, some e)
      | .ok t' => process_jobs norm cols t' js

/-- `fetch_greenhouse` (lines 153-161): the whole body is inside
`try/except Exception`, any failure (HTTP status, JSON decoding — folded into
the `resp` oracle — or normalization/store failure) is printed and swallowed.
The returned strings are the console messages. -/
def fetch_greenhouse (cols : List ColSpec) (resp : Except String (List RawJob))
    (org : String) (t : List JobRow) :
    Except String (List JobRow × List String) :=
  match resp with
  | .error e => .ok (t, ["[greenhouse] " ++ org ++ ": " ++ e])
  | .ok js =>
    match process_jobs (normalize_gh org) cols t js with
    | (t', none) => .ok (t', [])
    | (t', some e) => .ok (t', ["[greenhouse] " ++ org ++ ": " ++ e])

/-- The URL loop of `fetch_lever` (lines 164-176): each attempt is inside its
own `try/except`; a success returns at once, a failure records `last_err` and
moves to the next endpoint. -/
def fetch_lever_go (cols : List ColSpec) (org : String) :
    List (Except String (List RawJob)) → List JobRow → Option String →
    List JobRow × Option String
  | [], t, lastErr => (t, lastErr)
  | resp :: rest, t, _lastErr =>
    match resp with
    | .error e => fetch_lever_go cols org rest t (some e)
    | .ok js =>
      match process_jobs (normalize_lever org) cols t js with
      | (t', none) => (t', none)
      | (t', some e) => fetch_lever_go cols org rest t' (some e)
  termination_by resps => resps.length

/-- `fetch_lever` (lines 164-178): after the loop, `last_err` (if the loop
never returned) is printed; nothing is raised. -/
def fetch_lever (cols : List ColSpec)
    (resps : List (Except String (List RawJob))) (org : String)
    (t : List JobRow) : Except String (List JobRow × List String) :=
  match fetch_lever_go cols org resps t none with
  | (t', none) => .ok (t', [])
  | (t', some e) => .ok (t', ["[lever] " ++ org ++ ": " ++ e])

/-- C6: for every organization slug, response oracle, table state and schema,
`fetch_greenhouse` and `fetch_lever` never propagate a failure to their
caller: every branch ends in `.ok` (with the failure turned into a console
message), so the run continues with the next organization. -/
theorem c6_fetchers_never_propagate (cols : List ColSpec)
    (resp : Except String (List RawJob))
    (resps : List (Except String (List RawJob))) (org : String)
    (t : List JobRow) :
    isOkE (fetch_greenhouse cols resp org t) = true
    ∧ isOkE (fetch_lever cols resps org t) = true := by
  constructor
  · unfold fetch_greenhouse
    cases resp with
    | error e => rfl
    | ok js =>
      rcases hp : process_jobs (normalize_gh org) cols t js with ⟨t', e?⟩
      cases e? <;> simp [hp, isOkE]
  · unfold fetch_lever
    rcases hp : fetch_lever_go cols org resps t none with ⟨t', e?⟩
    cases e? <;> simp [hp, isOkE]

end FetchJobs

/-- The failure kinds that can cross a command boundary in this pipeline. -/
inductive CmdErr where
  | jobNotFound (jobId : String)
  | fileNotFound (path : String)
  | llmError (msg : String)
  | jsonError (msg : String)
  | pdfFailed (path : String)
deriving DecidableEq, Repr

/-- Whether a propagated failure is a missing required lookup (job absent from
the jobs table, or a required file absent from disk). -/
def isMissingLookup : CmdErr → Bool
  | .jobNotFound _ => true
  | .fileNotFound _ => true
  | _ => false

namespace Writer

/-! ## writer.py: `get_job`, `generate_for` and what they propagate -/

/-- `get_job` (writer.py lines 83-90): raises `ValueError` when the job id is
absent from the jobs table. -/
def get_job (t : List FetchJobs.JobRow) (jobId : String) :
    Except CmdErr FetchJobs.JobRow :=
  match t.find? (fun r => r.id == jobId) with
  | none => .error (.jobNotFound jobId)
  | some r => .ok r

/-- `job_id.replace(':', '_')` used for the output file names. -/
def replace_colons (s : String) : String :=
  String.mk (s.toList.map (fun c => if c = ':' then '_' else c))

/-- The resume markdown path `write_files` returns. -/
def resume_md_path (jobId : String) : String :=
  "docs/" ++ replace_colons jobId ++ "_resume.md"

/-- The cover-letter markdown path `write_files` returns. -/
def cover_md_path (jobId : String) : String :=
  "docs/" ++ replace_colons jobId ++ "_cover.md"

/-- `PROMPT_BULLETS.format(...)` (whitespace of the template abbreviated; the
claims under verification do not depend on the template text). -/
def prompt_bullets (skills job : String) : String :=
  "You are a concise resume bullet writer." ++ " MY_SKILLS: " ++ skills
    ++ " JOB_DESC: " ++ job ++ " Return bullets as a markdown list."

/-- `PROMPT_COVER.format(...)` (same abbreviation). -/
def prompt_cover (skills job : String) : String :=
  "Write a one-page cover letter for the role below." ++ " MY_SKILLS: "
    ++ skills ++ " ROLE: " ++ job

/-- `generate_for` (writer.py lines 129-150).  `json.loads(raw_json or "{}")`
is NOT wrapped in try/except (unlike `score_all`), so a parse failure
propagates, as does any failure of the two `complete` calls (the OpenAI
client, oracle `llm`, has no try/except around it).  `ensure_tables`,
`extract_description`, `write_files` and the applications upsert are total
and need no failure branch. -/
def generate_for {P : Type} (parse : String → Except String P)
    (emptyPayload : P) (extract : P → String)
    (llm : String → Except String String) (skillsJson : String)
    (t : List FetchJobs.JobRow) (jobId : String) :
    Except CmdErr (String × String) :=
  match get_job t jobId with
  | .error e => .error e
  | .ok r =>
    match (match r.raw_json with
           | none => Except.ok emptyPayload
           | some s => if s = "" then Except.ok emptyPayload else parse s) with
    | .error e => .error (.jsonError e)
    | .ok payload =>
      match llm (prompt_bullets skillsJson (extract payload)) with
      | .error e => .error (.llmError e)
      | .ok _bullets =>
        match llm (prompt_cover skillsJson (extract payload)) with
        | .error e => .error (.llmError e)
        | .ok _cover => .ok (resume_md_path jobId, cover_md_path jobId)

/-- The only failure `get_job` raises is the job-not-found lookup error. -/
theorem get_job_error_shape (t : List FetchJobs.JobRow) (jobId : String)
    (e : CmdErr) (h : get_job t jobId = .error e) :
    e = CmdErr.jobNotFound jobId := by
  unfold get_job at h
  split at h
  · exact (Except.error.inj h).symm
  · exact absurd h (by simp)

end Writer

namespace ConvertExport

/-- `Path(md_path).with_suffix('.pdf')`. -/
def with_suffix_pdf (p : String) : String :=
  let sfx := ApplyAssist.path_suffix p
  String.mk (p.toList.take (p.toList.length - sfx.toList.length)) ++ ".pdf"

/-- `ensure_pdf_from_md` (convert_and_export.py lines 81-96): raises
`FileNotFoundError` when the markdown source is absent; tries the pretty
converter inside try/except (oracle `pretty`, its failure suppressed), falls
back to the reportlab writer, and raises `RuntimeError` when no PDF file
exists afterwards (oracle `pdfAfter`).  `toAbs` is `to_abs`. -/
def ensure_pdf_from_md (mdExists : Bool) (pretty : Except String Bool)
    (pdfAfter : Bool) (toAbs : String → String) (mdPath : String) :
    Except CmdErr String :=
  if !mdExists then .error (.fileNotFound mdPath)
  else
    let _ok := match pretty with | .error _ => false | .ok b => b
    if pdfAfter then .ok (toAbs (with_suffix_pdf mdPath))
    else .error (.pdfFailed mdPath)

end ConvertExport

/-- C5 counterexample: with a jobs table containing the requested id and an
LLM client that fails (e.g. rate-limited), `generate_for` propagates
`llmError` out of the `generate` command — a hard failure that is not a
missing required lookup, refuting "every other failure is suppressed
locally". -/
theorem c5_counterexample :
    Writer.generate_for (fun _ => Except.ok ()) () (fun _ => "desc")
        (fun _ => Except.error "rate limited") "skills" [FetchJobs.rowA]
        "greenhouse:stripe:1"
      = Except.error (CmdErr.llmError "rate limited")
    ∧ isMissingLookup (CmdErr.llmError "rate limited") = false :=
  ⟨rfl, rfl⟩

/-- C5 (amended): the failures that propagate out of a command are the missing
required lookups (job not found, required file not found) and, in addition,
failures of the LLM completion calls and of parsing the stored payload during
`generate`, and PDF-creation failure during `convert`; per-org network
failures and per-field form-filling failures remain suppressed locally. -/
theorem c5_propagated_failures :
    (∀ {P : Type} (parse : String → Except String P) (emptyPayload : P)
        (extract : P → String) (llm : String → Except String String)
        (skillsJson : String) (t : List FetchJobs.JobRow) (jobId : String)
        (e : CmdErr),
        Writer.generate_for parse emptyPayload extract llm skillsJson t jobId
          = .error e →
        (∃ s, e = CmdErr.jobNotFound s) ∨ (∃ s, e = CmdErr.jsonError s)
          ∨ (∃ s, e = CmdErr.llmError s))
    ∧ (∀ (mdExists : Bool) (pretty : Except String Bool) (pdfAfter : Bool)
        (toAbs : String → String) (mdPath : String) (e : CmdErr),
        ConvertExport.ensure_pdf_from_md mdExists pretty pdfAfter toAbs mdPath
          = .error e →
        (∃ p, e = CmdErr.fileNotFound p) ∨ (∃ p, e = CmdErr.pdfFailed p)) := by
  constructor
  · intro P parse emptyPayload extract llm skillsJson t jobId e h
    unfold Writer.generate_for at h
    split at h
    case _ e1 heq =>
      have h1 : e1 = e := Except.error.inj h
      left
      exact ⟨jobId, h1 ▸ Writer.get_job_error_shape t jobId e1 heq⟩
    case _ r heq =>
      split at h
      case _ e1 heq2 =>
        right; left
        exact ⟨e1, (Except.error.inj h).symm⟩
      case _ payload heq2 =>
        split at h
        case _ e1 heq3 =>
          right; right
          exact ⟨e1, (Except.error.inj h).symm⟩
        case _ b heq3 =>
          split at h
          case _ e1 heq4 =>
            right; right
            exact ⟨e1, (Except.error.inj h).symm⟩
          case _ c heq4 => exact absurd h (by simp)
  · intro mdExists pretty pdfAfter toAbs mdPath e h
    unfold ConvertExport.ensure_pdf_from_md at h
    by_cases hm : mdExists = true
    · simp only [hm, Bool.not_true, Bool.false_eq_true, if_false] at h
      by_cases hp : pdfAfter = true
      · simp [hp] at h
      · have hp' : pdfAfter = false := Bool.eq_false_iff.mpr hp
        simp only [hp', Bool.false_eq_true, if_false] at h
        right
        exact ⟨mdPath, by injection h.symm⟩
    · have hm' : mdExists = false := Bool.eq_false_iff.mpr hm
      simp only [hm', Bool.not_false, if_true] at h
      left
      exact ⟨mdPath, by injection h.symm⟩

theorem c5_propagated_failures_witness :
    (∃ s, CmdErr.llmError "rate limited" = CmdErr.jobNotFound s)
    ∨ (∃ s, CmdErr.llmError "rate limited" = CmdErr.jsonError s)
    ∨ (∃ s, CmdErr.llmError "rate limited" = CmdErr.llmError s) :=
  c5_propagated_failures.1 (fun _ => Except.ok ()) () (fun _ => "desc")
    (fun _ => Except.error "rate limited") "skills" [FetchJobs.rowA]
    "greenhouse:stripe:1" (CmdErr.llmError "rate limited") rfl

namespace ApplyAssist

/-! ## apply_assist.py: `_upload_best_effort` and its strategy cascade -/

/-- The two document kinds handled by the uploader. -/
inductive Kind where
  | resume
  | cover
deriving DecidableEq, Repr

/-- One upload strategy attempt, as logged in the trace: (a) known CSS
selectors for a kind, (b) clicking attach/upload buttons, (c) picking a
scanned file input by its name/id attributes, (d) positional fallback. -/
inductive Strat where
  | known (k : Kind)
  | clickButtons
  | scanPick (k : Kind)
  | positional (k : Kind)
deriving DecidableEq, Repr

/-- A file input found by `_scan_file_inputs`: its `name` and `id`
attributes (empty string when absent). -/
structure FileInput where
  name : String
  id : String
deriving DecidableEq, Repr

/-- The page as the uploader observes it.  `knownResumeOk`/`knownCoverOk`:
whether `_try_upload_known` succeeds for the kind (some selector of
`FILE_SELECTORS` matches and `set_input_files` succeeds — the CSS engine is
external, so this is an oracle).  `baseInputs`/`revealedInputs`: the file
inputs `_scan_file_inputs` returns without/after clicking the `BUTTON_CUES`
buttons.  `setOk i`: whether `set_input_files` on scanned input `i`
succeeds. -/
structure UploadPage where
  knownResumeOk : Bool
  knownCoverOk : Bool
  baseInputs : List FileInput
  revealedInputs : List FileInput
  setOk : ℕ → Bool

/-- `FILE_SELECTORS` (apply_assist.py lines 30-45), recorded as data; their
evaluation against the DOM is folded into the `UploadPage` oracle. -/
def FILE_SELECTORS : List (String × List String) :=
  [("resume",
    ["input[type=\x27file\x27][name*=\x27resume\x27]",
     "input[type=\x27file\x27][name*=\x27cv\x27]",
     "input#resume",
     "input#resume-upload-input",
     "input[name=\x27application[resume]\x27]",
     "[data-qa=\x27resume-uploader\x27] input[type=\x27file\x27]"]),
   ("cover",
    ["input[type=\x27file\x27][name*=\x27cover\x27]",
     "input[name=\x27application[cover_letter]\x27]",
     "input#cover",
     "[data-qa=\x27coverLetter-uploader\x27] input[type=\x27file\x27]"])]

/-- `BUTTON_CUES` (line 78). -/
def BUTTON_CUES : List String :=
  ["attach", "upload", "resume", "choose file", "browse"]

/-- `_try_upload_known` (lines 154-165): `False` immediately when the path is
absent, otherwise whether some known selector matched and received the file
(oracle `kindOk`). -/
def try_upload_known (kindOk : Bool) (path : Option String) : Bool :=
  match path with
  | none => false
  | some _ => kindOk

/-- The guard of `_click_possible_attach_buttons` inside
`_upload_best_effort` (line 171): some requested kind is still missing. -/
def need_click (rp cp : Option String) (upR upC : Bool) : Bool :=
  (rp.isSome && !upR) || (cp.isSome && !upC)

/-- The inputs `_scan_file_inputs` observes: the revealed ones when the attach
buttons were clicked first. -/
def scan_inputs (pg : UploadPage) (clicked : Bool) : List FileInput :=
  if clicked then pg.revealedInputs else pg.baseInputs

/-- The input list scanned during a given run of `_upload_best_effort`. -/
def ube_inputs (pg : UploadPage) (rp cp : Option String) : List FileInput :=
  scan_inputs pg
    (need_click rp cp (try_upload_known pg.knownResumeOk rp)
      (try_upload_known pg.knownCoverOk cp))

/-- `re.search("resume|cv", name, re.I) or re.search(..., id, ...)` in the
`pick` helper (lines 177-182). -/
def matches_resume_attr (inp : FileInput) : Bool :=
  containsSub "resume" (lowerStr inp.name) || containsSub "cv" (lowerStr inp.name)
    || containsSub "resume" (lowerStr inp.id)
    || containsSub "cv" (lowerStr inp.id)

/-- The same for the cover-letter regex `"cover"`. -/
def matches_cover_attr (inp : FileInput) : Bool :=
  containsSub "cover" (lowerStr inp.name) || containsSub "cover" (lowerStr inp.id)

/-- Outcome of strategy (c) for one kind: `pick` the first scanned input whose
attributes match, then `set_input_files` on it (failure swallowed). -/
def scan_hit (pg : UploadPage) (inputs : List FileInput)
    (p : FileInput → Bool) : Bool :=
  match inputs.findIdx? p with
  | some i => pg.setOk i
  | none => false

/-- `_upload_best_effort` (apply_assist.py lines 167-220), with a trace of the
strategies attempted.  Strategy (a) runs for each requested kind; buttons are
clicked once when some requested kind is still missing; strategy (c) runs for
a kind iff its path is present and (a) failed; strategy (d) for the resume
grabs input 0 when the scan list is non-empty, and for the cover grabs input
1 when at least two inputs exist. -/
def upload_best_effort (pg : UploadPage) (rp cp : Option String) :
    Bool × Bool × List Strat :=
  let upR0 := try_upload_known pg.knownResumeOk rp
  let upC0 := try_upload_known pg.knownCoverOk cp
  let tr0 := (if rp.isSome then [Strat.known Kind.resume] else [])
          ++ (if cp.isSome then [Strat.known Kind.cover] else [])
  let clicked := need_click rp cp upR0 upC0
  let tr1 := tr0 ++ (if clicked then [Strat.clickButtons] else [])
  let inputs := ube_inputs pg rp cp
  let doScanR := rp.isSome && !upR0
  let upR1 := if doScanR then scan_hit pg inputs matches_resume_attr else upR0
  let tr2 := tr1 ++ (if doScanR then [Strat.scanPick Kind.resume] else [])
  let doScanC := cp.isSome && !upC0
  let upC1 := if doScanC then scan_hit pg inputs matches_cover_attr else upC0
  let tr3 := tr2 ++ (if doScanC then [Strat.scanPick Kind.cover] else [])
  let doPosR := rp.isSome && !upR1 && !inputs.isEmpty
  let upR2 := if doPosR then pg.setOk 0 else upR1
  let tr4 := tr3 ++ (if doPosR then [Strat.positional Kind.resume] else [])
  let doPosC := cp.isSome && !upC1 && decide (2 ≤ inputs.length)
  let upC2 := if doPosC then pg.setOk 1 else upC1
  let tr5 := tr4 ++ (if doPosC then [Strat.positional Kind.cover] else [])
  (upR2, upC2, tr5)

/-- Whether the resume ended up uploaded. -/
def ube_resume (pg : UploadPage) (rp cp : Option String) : Bool :=
  (upload_best_effort pg rp cp).1

/-- Whether the cover letter ended up uploaded. -/
def ube_cover (pg : UploadPage) (rp cp : Option String) : Bool :=
  (upload_best_effort pg rp cp).2.1

/-- The strategies attempted, in execution order. -/
def ube_trace (pg : UploadPage) (rp cp : Option String) : List Strat :=
  (upload_best_effort pg rp cp).2.2

/-- The strategy order the spec describes. -/
def strat_canonical : List Strat :=
  [Strat.known Kind.resume, Strat.known Kind.cover, Strat.clickButtons,
   Strat.scanPick Kind.resume, Strat.scanPick Kind.cover,
   Strat.positional Kind.resume, Strat.positional Kind.cover]

theorem singleton_if_sublist {α : Type} (c : Bool) (a : α) :
    (if c then [a] else []).Sublist [a] := by
  cases c <;> simp

theorem mem_if_singleton {α : Type} (x a : α) (c : Bool) :
    x ∈ (if c then [a] else []) ↔ c = true ∧ x = a := by
  cases c <;> simp

end ApplyAssist

namespace ApplyAssist

/-- C4: for each document kind, `_upload_best_effort` attempts the strategies
in the order known-selectors, button-clicking, attribute-scan, positional
fallback (the trace is always an ordered sublist of that cascade); the
attribute-scan for a kind runs only when that kind was requested and the
known-selector strategy did not succeed; the positional fallback for a kind
runs only when the known-selector and attribute-scan strategies both failed,
with the resume falling back to the first file input (requiring one to exist)
and the cover letter to the second (requiring at least two). -/
theorem c4_upload_strategy_cascade (pg : UploadPage) (rp cp : Option String) :
    (ube_trace pg rp cp).Sublist strat_canonical
    ∧ (Strat.scanPick Kind.resume ∈ ube_trace pg rp cp →
        rp.isSome = true ∧ try_upload_known pg.knownResumeOk rp = false)
    ∧ (Strat.scanPick Kind.cover ∈ ube_trace pg rp cp →
        cp.isSome = true ∧ try_upload_known pg.knownCoverOk cp = false)
    ∧ (Strat.positional Kind.resume ∈ ube_trace pg rp cp →
        try_upload_known pg.knownResumeOk rp = false
        ∧ Strat.scanPick Kind.resume ∈ ube_trace pg rp cp
        ∧ scan_hit pg (ube_inputs pg rp cp) matches_resume_attr = false
        ∧ ube_inputs pg rp cp ≠ []
        ∧ ube_resume pg rp cp = pg.setOk 0)
    ∧ (Strat.positional Kind.cover ∈ ube_trace pg rp cp →
        try_upload_known pg.knownCoverOk cp = false
        ∧ Strat.scanPick Kind.cover ∈ ube_trace pg rp cp
        ∧ scan_hit pg (ube_inputs pg rp cp) matches_cover_attr = false
        ∧ 2 ≤ (ube_inputs pg rp cp).length
        ∧ ube_cover pg rp cp = pg.setOk 1) := by
  refine ⟨?_, ?_, ?_, ?_, ?_⟩
  · show ((((((if rp.isSome then [Strat.known Kind.resume] else [])
        ++ (if cp.isSome then [Strat.known Kind.cover] else []))
        ++ (if need_click rp cp (try_upload_known pg.knownResumeOk rp)
              (try_upload_known pg.knownCoverOk cp)
            then [Strat.clickButtons] else []))
        ++ (if rp.isSome && !try_upload_known pg.knownResumeOk rp
            then [Strat.scanPick Kind.resume] else []))
        ++ (if cp.isSome && !try_upload_known pg.knownCoverOk cp
            then [Strat.scanPick Kind.cover] else []))
        ++ _
        ++ _).Sublist
      ([Strat.known Kind.resume] ++ [Strat.known Kind.cover]
        ++ [Strat.clickButtons] ++ [Strat.scanPick Kind.resume]
        ++ [Strat.scanPick Kind.cover] ++ [Strat.positional Kind.resume]
        ++ [Strat.positional Kind.cover])
    exact ((((((singleton_if_sublist _ _).append
      (singleton_if_sublist _ _)).append
      (singleton_if_sublist _ _)).append (singleton_if_sublist _ _)).append
      (singleton_if_sublist _ _)).append (singleton_if_sublist _ _)).append
      (singleton_if_sublist _ _)
  · intro hm
    simp only [ube_trace, upload_best_effort, List.mem_append,
      mem_if_singleton] at hm
    simp at hm
    obtain ⟨h1, h2⟩ := hm
    exact ⟨h1, by simp [h2]⟩
  · intro hm
    simp only [ube_trace, upload_best_effort, List.mem_append,
      mem_if_singleton] at hm
    simp at hm
    obtain ⟨h1, h2⟩ := hm
    exact ⟨h1, by simp [h2]⟩
  · intro hm
    simp only [ube_trace, upload_best_effort, List.mem_append,
      mem_if_singleton] at hm
    simp at hm
    obtain ⟨⟨h1, h2⟩, h3⟩ := hm
    cases hb : try_upload_known pg.knownResumeOk rp with
    | true => rw [hb] at h2; simp [h1] at h2
    | false =>
      rw [hb] at h2
      simp [h1] at h2
      refine ⟨rfl, ?_, h2, h3, ?_⟩
      · simp [ube_trace, upload_best_effort, List.mem_append,
          mem_if_singleton, h1, hb]
      · simp [ube_resume, upload_best_effort, h1, hb, h2, h3]
  · intro hm
    simp only [ube_trace, upload_best_effort, List.mem_append,
      mem_if_singleton] at hm
    simp at hm
    obtain ⟨⟨h1, h2⟩, h3⟩ := hm
    cases hb : try_upload_known pg.knownCoverOk cp with
    | true => rw [hb] at h2; simp [h1] at h2
    | false =>
      rw [hb] at h2
      simp [h1] at h2
      refine ⟨rfl, ?_, h2, h3, ?_⟩
      · simp [ube_trace, upload_best_effort, List.mem_append,
          mem_if_singleton, h1, hb]
      · simp [ube_cover, upload_best_effort, h1, hb, h2, h3]

/-- A concrete page exercising the whole cascade: both known-selector
strategies fail, clicking reveals two anonymous file inputs, the attribute
scans find nothing, and both positional fallbacks fire. -/
def demoPage : UploadPage :=
  { knownResumeOk := false
    knownCoverOk := false
    baseInputs := []
    revealedInputs := [⟨"f0", "g0"⟩, ⟨"f1", "g1"⟩]
    setOk := fun _ => true }

theorem c4_upload_strategy_cascade_witness :
    try_upload_known demoPage.knownCoverOk (some "c.pdf") = false
    ∧ Strat.scanPick Kind.cover ∈ ube_trace demoPage (some "r.pdf") (some "c.pdf")
    ∧ scan_hit demoPage (ube_inputs demoPage (some "r.pdf") (some "c.pdf"))
        matches_cover_attr = false
    ∧ 2 ≤ (ube_inputs demoPage (some "r.pdf") (some "c.pdf")).length
    ∧ ube_cover demoPage (some "r.pdf") (some "c.pdf") = demoPage.setOk 1 :=
  (c4_upload_strategy_cascade demoPage (some "r.pdf")
    (some "c.pdf")).2.2.2.2 (by decide)

end ApplyAssist

namespace ApplyAssist

/-! ## apply_assist.py: `_fill_field` / `_fill_all_textish` -/

/-- A text-like form control: the text of its associated label, its
`placeholder`/`name`/`aria-label` attributes, its current value, whether
`fill` succeeds on it, and whether the final-pass locator
(`input[type='text'], input:not([type])`) selects it. -/
structure TextInput where
  label : String
  placeholder : String
  name : String
  aria : String
  tval : String
  fillable : Bool
  textish : Bool
deriving DecidableEq, Repr, Inhabited

/-- `LABEL_PATTERNS` (apply_assist.py lines 48-60). -/
def LABEL_PATTERNS : List (String × List String) :=
  [("first", ["first\\s*name"]),
   ("last", ["last\\s*name|surname"]),
   ("email", ["email"]),
   ("phone", ["phone|mobile"]),
   ("linkedin", ["linkedin"]),
   ("website", ["website|portfolio|personal\\s*site"]),
   ("city", ["where.*based|current.*location|city|location"]),
   ("employer", ["current.*employer|previous.*employer|company"]),
   ("job_title",
    ["current.*job.*title|previous.*job.*title|job\\s*title|title"]),
   ("school", ["most.*recent.*school|school|university|college"]),
   ("degree", ["most.*recent.*degree|degree|qualification"])]

/-- `CSS_FALLBACKS` (lines 63-75). -/
def CSS_FALLBACKS : List (String × List String) :=
  [("first", ["input[name*=\x27firstName\x27]", "input[name*=\x27first_name\x27]"]),
   ("last", ["input[name*=\x27lastName\x27]", "input[name*=\x27last_name\x27]"]),
   ("email", ["input[type=\x27email\x27]", "input[name*=\x27email\x27]"]),
   ("phone", ["input[type=\x27tel\x27]", "input[name*=\x27phone\x27]"]),
   ("linkedin",
    ["input[name*=\x27linkedin\x27]", "input[placeholder*=\x27LinkedIn\x27 i]"]),
   ("website", ["input[name*=\x27website\x27]", "input[name*=\x27portfolio\x27]"]),
   ("city",
    ["input[name*=\x27city\x27]", "input[name*=\x27location\x27]",
     "input[placeholder*=\x27location\x27 i]"]),
   ("employer", ["input[name*=\x27employer\x27]", "input[name*=\x27company\x27]"]),
   ("job_title", ["input[name*=\x27title\x27]"]),
   ("school",
    ["input[name*=\x27school\x27]", "input[name*=\x27university\x27]",
     "input[name*=\x27college\x27]"]),
   ("degree", ["input[name*=\x27degree\x27]"])]

/-- `PROFILE` (lines 11-24). -/
def PROFILE : List (String × String) :=
  [("first", "Jordan"), ("last", "Miller"),
   ("email", "jordan.miller@example.com"), ("phone", "+41 79 555 12 34"),
   ("linkedin", "https://www.linkedin.com/in/jordanmiller123"),
   ("website", "https://jordanmiller.dev"),
   ("city", "Zurich, Switzerland"), ("employer", "Acme Analytics AG"),
   ("job_title", "Data Analyst"), ("school", "University of Zurich"),
   ("degree", "B.Sc. Computer Science")]

/-- `profile.get(k, "")`. -/
def profile_get (k : String) : String :=
  ((PROFILE.find? (fun p => p.1 == k)).map Prod.snd).getD ""

/-- `LABEL_PATTERNS.get(key, [])`. -/
def label_pats (k : String) : List String :=
  ((LABEL_PATTERNS.find? (fun p => p.1 == k)).map Prod.snd).getD []

/-- `CSS_FALLBACKS[key]` when `key in CSS_FALLBACKS`. -/
def css_sels? (k : String) : Option (List String) :=
  (CSS_FALLBACKS.find? (fun p => p.1 == k)).map Prod.snd

/-- Fill the input at position `i` with value `v`. -/
def set_value : List TextInput → ℕ → String → List TextInput
  | [], _, _ => []
  | x :: xs, 0, v => { x with tval := v } :: xs
  | x :: xs, i + 1, v => x :: set_value xs i v

/-- `_try_fill_by_label` (lines 110-117): for each pattern, target the first
input whose label matches (`get_by_label(...).first`, oracle `rx` for
`re`-matching); a successful `fill` returns `True`, a failing `fill` or a
missing match moves to the next pattern. -/
def try_fill_by_label (rx : String → String → Bool) (v : String)
    (inputs : List TextInput) : List String → List TextInput × Bool
  | [] => (inputs, false)
  | pat :: rest =>
    match inputs.findIdx? (fun inp => rx pat inp.label) with
    | some i =>
      if (inputs.getD i default).fillable then (set_value inputs i v, true)
      else try_fill_by_label rx v inputs rest
    | none => try_fill_by_label rx v inputs rest

/-- `_try_fill_by_css` (lines 119-128): same cascade over CSS selectors
(oracle `css` for selector matching). -/
def try_fill_by_css (css : String → TextInput → Bool) (v : String)
    (inputs : List TextInput) : List String → List TextInput × Bool
  | [] => (inputs, false)
  | sel :: rest =>
    match inputs.findIdx? (fun inp => css sel inp) with
    | some i =>
      if (inputs.getD i default).fillable then (set_value inputs i v, true)
      else try_fill_by_css css v inputs rest
    | none => try_fill_by_css css v inputs rest

/-- One logged filling-strategy use for a profile field (or, for the final
pass, for the input at a given index with the cue pattern that matched). -/
inductive FillEv where
  | label (k : String)
  | css (k : String)
  | finalFill (i : ℕ) (pat : String)
deriving DecidableEq, Repr

/-- `_fill_field` (lines 238-247): nothing for an empty value; label-regex
strategy first; the CSS fallback only when the label strategy returned
`False` and the key has fallback selectors. -/
def fill_field (rx : String → String → Bool) (css : String → TextInput → Bool)
    (k v : String) (inputs : List TextInput) :
    List TextInput × Bool × List FillEv :=
  if v = "" then (inputs, false, [])
  else
    let r1 := try_fill_by_label rx v inputs (label_pats k)
    if r1.2 then (r1.1, true, [FillEv.label k])
    else
      match css_sels? k with
      | some sels =>
        let r2 := try_fill_by_css css v r1.1 sels
        (r2.1, r2.2, [FillEv.label k, FillEv.css k])
      | none => (r1.1, false, [FillEv.label k])

/-- The field order of the two `_fill_field` loops in `_fill_all_textish`
(lines 250-255). -/
def FIELD_ORDER : List String :=
  ["first", "last", "email", "phone", "linkedin", "website",
   "city", "employer", "job_title", "school", "degree"]

/-- The per-field passes of `_fill_all_textish`. -/
def fill_fields_pass (rx : String → String → Bool)
    (css : String → TextInput → Bool) (profile : String → String) :
    List String → List TextInput → List TextInput × List FillEv
  | [], inputs => (inputs, [])
  | k :: ks, inputs =>
    let r1 := fill_field rx css k (profile k) inputs
    let r2 := fill_fields_pass rx css profile ks r1.1
    (r2.1, r1.2.2 ++ r2.2)

/-- The `cues` dict of the final pass (lines 258-266), in insertion order. -/
def cues_of (profile : String → String) : List (String × String) :=
  [("city|location", profile "city"),
   ("employer|company", profile "employer"),
   ("job\\s*title|title", profile "job_title"),
   ("school|university|college", profile "school"),
   ("degree|qualification", profile "degree"),
   ("linkedin", profile "linkedin"),
   ("website|portfolio", profile "website")]

/-- The attribute blob the final pass matches: placeholder, name and
aria-label joined and lowercased (lines 273-277). -/
def blob_of (inp : TextInput) : String :=
  lowerStr (inp.placeholder ++ " " ++ inp.name ++ " " ++ inp.aria)

/-- One iteration of the final pass (lines 268-283): skip non-text inputs and
inputs that already hold a value; otherwise fill with the first cue whose
value is truthy and whose pattern matches the blob (a failing `fill` is
swallowed and, because the exception escapes the cue loop, no later cue is
tried). -/
def process_one (rx : String → String → Bool) (cues : List (String × String))
    (inp : TextInput) (i : ℕ) : TextInput × List FillEv :=
  if inp.textish = false then (inp, [])
  else if inp.tval ≠ "" then (inp, [])
  else
    match cues.find? (fun pv => !(pv.2 == "") && rx pv.1 (blob_of inp)) with
    | some pv =>
      if inp.fillable then
        ({ inp with tval := pv.2 }, [FillEv.finalFill i pv.1])
      else (inp, [FillEv.finalFill i pv.1])
    | none => (inp, [])

/-- The final opportunistic pass over all inputs, indexed from `i`. -/
def final_pass (rx : String → String → Bool) (cues : List (String × String)) :
    List TextInput → ℕ → List TextInput × List FillEv
  | [], _ => ([], [])
  | inp :: rest, i =>
    let r1 := process_one rx cues inp i
    let r2 := final_pass rx cues rest (i + 1)
    (r1.1 :: r2.1, r1.2 ++ r2.2)

/-- `_fill_all_textish` (lines 249-283): the eleven per-field fills in order,
then the final placeholder/name/aria-label pass over the still-empty text
inputs. -/
def fill_all_textish (rx : String → String → Bool)
    (css : String → TextInput → Bool) (profile : String → String)
    (inputs : List TextInput) : List TextInput × List FillEv :=
  let r1 := fill_fields_pass rx css profile FIELD_ORDER inputs
  let r2 := final_pass rx (cues_of profile) r1.1 0
  (r2.1, r1.2 ++ r2.2)

end ApplyAssist

namespace ApplyAssist

/-- A concrete regex oracle for the counterexample: only the two city
patterns match, and they match any text containing "city". -/
def rxDemo (pat s : String) : Bool :=
  (pat == "where.*based|current.*location|city|location"
    || pat == "city|location")
    && containsSub "city" (lowerStr s)

/-- A CSS oracle under which no fallback selector matches. -/
def cssDemo (_sel : String) (_inp : TextInput) : Bool := false

/-- An empty text input labelled "City": the label-regex strategy fills it. -/
def demoInput0 : TextInput := ⟨"City", "", "", "", "", true, true⟩

/-- A second, still-empty text input whose placeholder is "city": the final
pass fills it although the city field was already filled into the first
input. -/
def demoInput1 : TextInput := ⟨"Other", "city", "", "", "", true, true⟩

/-- C8 counterexample: on a page with two city-flavoured inputs, the
label-text strategy fills the city profile value into input 0 (so the earlier
strategies DID fill the city field), yet the final pass still fills the city
value into input 1 — it is gated on the input being empty, not on the field
being unfilled.  This refutes "a later strategy for a field is used only when
the earlier ones did not fill it". -/
theorem c8_counterexample :
    ((fill_fields_pass rxDemo cssDemo profile_get FIELD_ORDER
        [demoInput0, demoInput1]).1.map (fun inp => inp.tval)
      = ["Zurich, Switzerland", ""])
    ∧ FillEv.label "city" ∈ (fill_fields_pass rxDemo cssDemo profile_get
        FIELD_ORDER [demoInput0, demoInput1]).2
    ∧ ((fill_all_textish rxDemo cssDemo profile_get
        [demoInput0, demoInput1]).1.map (fun inp => inp.tval)
      = ["Zurich, Switzerland", "Zurich, Switzerland"])
    ∧ FillEv.finalFill 1 "city|location" ∈ (fill_all_textish rxDemo cssDemo
        profile_get [demoInput0, demoInput1]).2 := by
  refine ⟨by decide, by decide, by decide, by decide⟩

/-- C8 (amended): per field, the CSS attribute-fallback strategy is used only
when the label-text strategy did not fill the field; but the final pass is
gated only on an input being still empty (and text-like): it fills any such
input whose placeholder/name/aria-label matches a keyword cue with that cue's
profile value, regardless of whether the field was already filled by an
earlier strategy, and it never touches an input that already holds a value;
per-field failures are silently ignored (every strategy is total). -/
theorem c8_fill_order_amended (rx : String → String → Bool)
    (css : String → TextInput → Bool) (k v : String)
    (inputs : List TextInput) (cues : List (String × String))
    (inp : TextInput) (i : ℕ) :
    (FillEv.css k ∈ (fill_field rx css k v inputs).2.2 →
      (try_fill_by_label rx v inputs (label_pats k)).2 = false)
    ∧ (inp.tval ≠ "" → process_one rx cues inp i = (inp, [])) := by
  constructor
  · intro hm
    by_cases hv : v = ""
    · simp [fill_field, hv] at hm
    · by_cases hl : (try_fill_by_label rx v inputs (label_pats k)).2 = true
      · simp [fill_field, hv, hl] at hm
      · exact Bool.eq_false_iff.mpr hl
  · intro h
    unfold process_one
    by_cases ht : inp.textish = false
    · simp [ht]
    · simp [ht, h]

/-- An input that already holds a value, for the witness below. -/
def demoFilledInput : TextInput := ⟨"x", "city", "", "", "taken", true, true⟩

theorem c8_fill_order_amended_witness :
    (try_fill_by_label rxDemo "Jordan" [demoInput0]
        (label_pats "first")).2 = false
    ∧ process_one rxDemo (cues_of profile_get) demoFilledInput 3
        = (demoFilledInput, []) :=
  ⟨(c8_fill_order_amended rxDemo cssDemo "first" "Jordan" [demoInput0]
      (cues_of profile_get) demoFilledInput 3).1 (by decide),
   (c8_fill_order_amended rxDemo cssDemo "first" "Jordan" [demoInput0]
      (cues_of profile_get) demoFilledInput 3).2 (by decide)⟩

end ApplyAssist
